import Mathlib

/-!
Shallow embedding of `cc-finder` (`src/index.ts`), a CLI that enriches a CSV
of CAS numbers with data fetched from the PubChem HTTP API, together with
proofs of the specification claims about it.

Network responses are modelled by environments (`Nat → Response`,
attempt-indexed) so that the retry loop, the two-step lookup and the
concurrent worker pool can be reasoned about for every possible upstream
behaviour and every interleaving.
-/

namespace CcFinder

/-- `const CONCURRENCY_LIMIT = 5` (index.ts line 7). -/
def CONCURRENCY_LIMIT : Nat := 5

/-- JavaScript `a || b` where `a` is an optional string: both a missing
(`undefined`) value and the empty string are falsy, so they fall through
to `b`. -/
def jsOr (a : Option String) (b : String) : String :=
  match a with
  | some s => if s = "" then b else s
  | none => b

/-- Whitespace trimming on the underlying character list: drop leading and
trailing whitespace.  This models the `trim: true` option of `csv-parse`
and JavaScript `String.prototype.trim`. -/
def trimL (l : List Char) : List Char :=
  ((l.dropWhile Char.isWhitespace).reverse.dropWhile Char.isWhitespace).reverse

/-- String-level trimming, via `trimL` on the character data. -/
def trimS (s : String) : String := String.mk (trimL s.data)

/-- The character sequence of the literal `".csv"`. -/
def csvSuffixChars : List Char := ['.', 'c', 's', 'v']

/-- `inputPath.replace(/\.csv$/i, "_results.csv")` from `main`
(index.ts line 256): the regex matches exactly when the final four
characters are `.csv` up to ASCII case; on a match that suffix is replaced
by `_results.csv`, and with no match the string is returned unchanged. -/
def deriveOutputPath (input : String) : String :=
  if 4 ≤ input.data.length ∧
      (input.data.drop (input.data.length - 4)).map Char.toLower = csvSuffixChars
  then String.mk (input.data.take (input.data.length - 4) ++ "_results.csv".data)
  else input

/-- A parsed CSV record: an association of column names to field values,
as produced by `parse(fileContent, { columns: true })`. -/
abbrev Row := List (String × String)

/-- JavaScript property access `record[key]` on a parsed record. -/
def rowGet (r : Row) (k : String) : Option String :=
  (r.find? (fun p => p.fst == k)).map Prod.snd

/-- The `trim: true` parser option: every field value arrives trimmed. -/
def trimRecord (r : Row) : Row := r.map (fun p => (p.fst, trimS p.snd))

/-- `record.cas_number || record.CAS || record.cas || record["CAS Number"]`
(index.ts line 134), with JavaScript truthiness collapsing a missing final
value to the empty string. -/
def pickCas (r : Row) : String :=
  jsOr (rowGet r "cas_number")
    (jsOr (rowGet r "CAS") (jsOr (rowGet r "cas") (jsOr (rowGet r "CAS Number") "")))

/-- `readCasNumbersFromCsv` (index.ts lines 123-141), modelled from the
parsed records onward: the parser trims every field (`trim: true`), then for
each record the first truthy column among the four recognized names is
pushed after a further `.trim()`; records with no truthy value are skipped. -/
def readCasNumbersFromCsv (records : List Row) : List String :=
  (records.map trimRecord).filterMap (fun r =>
    let c := pickCas r
    if c = "" then none else some (trimS c))

/-- Written from the claim's words: check the recognized columns in priority
order and take the first one whose value is non-empty after trimming, as the
trimmed identifier; if every recognized column is missing or trims to empty,
the row yields nothing. -/
def firstNonEmptyTrimmed : List (Option String) → Option String
  | [] => none
  | none :: rest => firstNonEmptyTrimmed rest
  | some v :: rest => if trimS v = "" then firstNonEmptyTrimmed rest else some (trimS v)

/-- Written from the claim's words: the identifier a row contributes, namely
the first non-empty trimmed value among `cas_number`, `CAS`, `cas`,
`CAS Number` in that order. -/
def specRowIdentifier (r : Row) : Option String :=
  firstNonEmptyTrimmed
    [rowGet r "cas_number", rowGet r "CAS", rowGet r "cas", rowGet r "CAS Number"]

/-! ### The PubChem JSON and HTTP model -/

/-- One property record of the PubChem property table
(`PubChemPropertyResponse`, index.ts lines 36-47); all fields except `CID`
are optional in the upstream payload. -/
structure PropRecord where
  CID : Int
  IUPACName : Option String
  Title : Option String
  MolecularFormula : Option String
  CanonicalSMILES : Option String
  ConnectivitySMILES : Option String
deriving DecidableEq

/-- A parsed JSON body, as far as the program reads it: the optional-chained
paths `IdentifierList?.CID` (index.ts line 89) and
`PropertyTable?.Properties` (line 99).  A body lacking a path reads as
`none`, exactly as optional chaining yields `undefined`. -/
structure Json where
  identifierListCID : Option (List Int)
  propertyTableProperties : Option (List PropRecord)
deriving DecidableEq

/-- Equality of `Except` values is decidable componentwise (used so that
witnesses can evaluate concrete outcomes). -/
instance {ε α : Type} [DecidableEq ε] [DecidableEq α] : DecidableEq (Except ε α) := fun a b =>
  match a, b with
  | Except.error e, Except.error e' =>
    if h : e = e' then Decidable.isTrue (congrArg Except.error h)
    else Decidable.isFalse (fun hc => h (Except.error.inj hc))
  | Except.error _, Except.ok _ => Decidable.isFalse (fun hc => Except.noConfusion hc)
  | Except.ok _, Except.error _ => Decidable.isFalse (fun hc => Except.noConfusion hc)
  | Except.ok x, Except.ok y =>
    if h : x = y then Decidable.isTrue (congrArg Except.ok h)
    else Decidable.isFalse (fun hc => h (Except.ok.inj hc))

/-- An HTTP response: status, status text, and the outcome of `.json()`
(which throws on a malformed body, modelled by `Except.error`). -/
structure Response where
  status : Nat
  statusText : String
  jsonResult : Except String Json
deriving DecidableEq

/-- `response.ok`: status in the inclusive range 200-299. -/
def Response.ok (r : Response) : Bool := 200 ≤ r.status && r.status < 300

/-- The errors `fetchWithRetry` can throw (index.ts lines 69, 72, 75). -/
inductive FetchError where
  | notFound : FetchError
  | httpStatus : Nat → String → FetchError
  | maxRetries : FetchError
deriving DecidableEq

/-- The `Error.message` carried by each thrown error. -/
def FetchError.message : FetchError → String
  | FetchError.notFound => "Compound not found in PubChem"
  | FetchError.httpStatus s t => "HTTP " ++ toString s ++ ": " ++ t
  | FetchError.maxRetries => "Max retries exceeded"

/-- The observable outcome of a `fetchWithRetry` call: the returned response
or thrown error, the number of `fetch` attempts made, and the sequence of
backoff sleeps (in milliseconds) performed. -/
structure FetchOutcome where
  result : Except FetchError Response
  attempts : Nat
  sleeps : List Nat
deriving DecidableEq

/-- The body of the `for (let i = 0; i < retries; i++)` loop of
`fetchWithRetry` (index.ts lines 54-73): `env i` is the response the `i`-th
`fetch` of this call resolves to; `fuel` is the number of loop iterations
remaining.  Running out of fuel is the fall-through to
`throw new Error("Max retries exceeded")` (line 75). -/
def fetchLoop (env : Nat → Response) (delay : Nat) : Nat → Nat → FetchOutcome
  | _, 0 => ⟨Except.error FetchError.maxRetries, 0, []⟩
  | i, fuel + 1 =>
    let r := env i
    if r.ok then ⟨Except.ok r, 1, []⟩
    else if r.status = 503 ∨ r.status = 429 then
      let rest := fetchLoop env delay (i + 1) fuel
      ⟨rest.result, rest.attempts + 1, delay * (i + 1) :: rest.sleeps⟩
    else if r.status = 404 then ⟨Except.error FetchError.notFound, 1, []⟩
    else ⟨Except.error (FetchError.httpStatus r.status r.statusText), 1, []⟩

/-- `fetchWithRetry(url, retries, delay)` (index.ts lines 49-76), with the
URL abstracted into the response environment `env`. -/
def fetchWithRetry (env : Nat → Response) (retries : Nat) (delay : Nat) : FetchOutcome :=
  fetchLoop env delay 0 retries

/-- The upstream behaviour one `getCompoundByCas` call can observe: the
attempt-indexed responses of the name-to-CID search request, and, for each
CID, the attempt-indexed responses of the properties request for that CID. -/
structure UpstreamEnv where
  search : Nat → Response
  props : Int → Nat → Response

/-- `ChemicalData` (index.ts lines 9-14). -/
structure ChemicalData where
  chemical_name : String
  smiles_code : String
  molecular_formula : String
  structure_image_url : String
deriving DecidableEq

/-- The return shape of `getCompoundByCas`:
`{ data: ChemicalData | null; error: string | null }`. -/
structure GetResult where
  data : Option ChemicalData
  error : Option String
deriving DecidableEq

/-- The Google-Sheets image formula built at index.ts line 105. -/
def imageFormula (cid : Int) : String :=
  "=IMAGE(\"https://pubchem.ncbi.nlm.nih.gov/rest/pug/compound/cid/"
    ++ toString cid ++ "/PNG\")"

/-- "Step 2" of `getCompoundByCas` (index.ts lines 94-115): fetch the
properties of the resolved CID and assemble the `ChemicalData`, with the
JavaScript `||` fallbacks `props.Title || props.IUPACName || ""`,
`props.CanonicalSMILES || props.ConnectivitySMILES || ""` and
`props.MolecularFormula || ""`.  `propsEnv` is the attempt-indexed response
environment of the properties request for this CID. -/
def propsStage (propsEnv : Nat → Response) (cid : Int) : GetResult :=
  match (fetchWithRetry propsEnv 3 1000).result with
  | Except.error e => ⟨none, some e.message⟩
  | Except.ok presp =>
    match presp.jsonResult with
    | Except.error m => ⟨none, some m⟩
    | Except.ok pj =>
      match pj.propertyTableProperties.bind List.head? with
      | none => ⟨none, some "Could not retrieve compound properties"⟩
      | some props =>
        ⟨some
          ⟨jsOr props.Title (jsOr props.IUPACName ""),
           jsOr props.CanonicalSMILES (jsOr props.ConnectivitySMILES ""),
           jsOr props.MolecularFormula "",
           imageFormula cid⟩,
         none⟩

/-- `getCompoundByCas` (index.ts lines 78-121).  The `try`/`catch` turns any
thrown error (a `fetchWithRetry` failure or a `.json()` parse failure) into
`{ data: null, error: message }`.  The check `if (!cid)` on
`searchData.IdentifierList?.CID?.[0]` is JavaScript truthiness, so both a
missing first CID and a first CID equal to `0` take the "No compound found"
branch; otherwise "Step 2" runs against the responses for that CID. -/
def getCompoundByCas (env : UpstreamEnv) : GetResult :=
  match (fetchWithRetry env.search 3 1000).result with
  | Except.error e => ⟨none, some e.message⟩
  | Except.ok resp =>
    match resp.jsonResult with
    | Except.error m => ⟨none, some m⟩
    | Except.ok j =>
      match j.identifierListCID.bind List.head? with
      | none => ⟨none, some "No compound found for this CAS number"⟩
      | some cid =>
        if cid = 0 then ⟨none, some "No compound found for this CAS number"⟩
        else propsStage (env.props cid) cid

/-- Written from the claim's words: the first available (present with a
non-empty value, i.e. truthy) field in the given preference order, else the
empty string. -/
def firstAvailable : List (Option String) → String
  | [] => ""
  | none :: rest => firstAvailable rest
  | some s :: rest => if s = "" then firstAvailable rest else s

/-- `OutputRow` (index.ts lines 16-24); the optional `error` field is
`none` when absent. -/
structure OutputRow where
  cas_number : String
  chemical_name : String
  smiles_code : String
  molecular_formula : String
  structure_image_url : String
  status : String
  error : Option String
deriving DecidableEq

/-- The per-identifier row construction inside `processChemicals`
(index.ts lines 197-224): a truthy `data` yields a success row with no
`error` property; otherwise a failed row with empty data fields and
`error: error || "Unknown error"`. -/
def buildOutputRow (casNumber : String) (r : GetResult) : OutputRow :=
  match r.data with
  | some d =>
    ⟨casNumber, d.chemical_name, d.smiles_code, d.molecular_formula,
     d.structure_image_url, "success", none⟩
  | none =>
    ⟨casNumber, "", "", "", "", "failed", some (jsOr r.error "Unknown error")⟩

/-- The processor `processChemicals` hands to `processInParallel`
(index.ts lines 197-224): for index `i`, look up `casNumbers[i]` against its
upstream environment and build the output row. -/
def chemProcessor (casNumbers : List String) (envOf : String → UpstreamEnv)
    (i : Nat) : OutputRow :=
  buildOutputRow (casNumbers.getD i "") (getCompoundByCas (envOf (casNumbers.getD i "")))

/-! ### The worker pool of `processInParallel` (index.ts lines 161-182)

The JavaScript event loop interleaves the `min(concurrency, items.length)`
workers at their `await` points.  A worker is `idle` when it is about to
run the loop test, `busy i` while it awaits `processor(items[i], i)`, and
`done` once the loop test failed.  The test `currentIndex < items.length`
and the post-increment `currentIndex++` happen in one synchronous slice,
so claiming an index is a single step. -/

/-- The status of one logical worker of the pool. -/
inductive WStatus where
  | idle : WStatus
  | busy : Nat → WStatus
  | done : WStatus
deriving DecidableEq

/-- The shared state of one `processInParallel(items, processor, concurrency)`
call: the claim cursor `currentIndex`, the results array (`none` = unset
hole), and the worker statuses. -/
structure PoolState (R : Type) where
  cursor : Nat
  results : List (Option R)
  workers : List WStatus
deriving DecidableEq

/-- The initial state: cursor `0`, `new Array(items.length)` of holes, and
`Math.min(concurrency, items.length)` workers about to run their loop test. -/
def poolInit (R : Type) (n C : Nat) : PoolState R :=
  ⟨0, List.replicate n none, List.replicate (min C n) WStatus.idle⟩

/-- One scheduler step of the pool, for `n = items.length` and
`f i = processor(items[i], i)` (the result the processor yields at index
`i`, fixed because upstream responses are fixed):
* `claim`: an idle worker passes the loop test and atomically claims
  `currentIndex++`;
* `complete`: the awaited processor call of a busy worker resolves and the
  worker stores `results[index]`;
* `retire`: an idle worker fails the loop test and returns. -/
inductive PoolStep {R : Type} (n : Nat) (f : Nat → R) : PoolState R → PoolState R → Prop where
  | claim (s : PoolState R) (w : Nat) :
      s.workers[w]? = some WStatus.idle → s.cursor < n →
      PoolStep n f s ⟨s.cursor + 1, s.results, s.workers.set w (WStatus.busy s.cursor)⟩
  | complete (s : PoolState R) (w i : Nat) :
      s.workers[w]? = some (WStatus.busy i) →
      PoolStep n f s ⟨s.cursor, s.results.set i (some (f i)), s.workers.set w WStatus.idle⟩
  | retire (s : PoolState R) (w : Nat) :
      s.workers[w]? = some WStatus.idle → n ≤ s.cursor →
      PoolStep n f s ⟨s.cursor, s.results, s.workers.set w WStatus.done⟩

/-- The states a run of `processInParallel` can reach, under any
interleaving of the workers. -/
inductive PoolReach {R : Type} (n : Nat) (f : Nat → R) (C : Nat) : PoolState R → Prop where
  | init : PoolReach n f C (poolInit R n C)
  | step (s t : PoolState R) : PoolReach n f C s → PoolStep n f s t → PoolReach n f C t

/-- `Promise.all(workers)` has resolved: every worker has returned. -/
def PoolTerminal {R : Type} (s : PoolState R) : Prop :=
  ∀ st ∈ s.workers, st = WStatus.done

/-- A worker status is in flight exactly when it is busy. -/
def WStatus.isBusy : WStatus → Bool
  | WStatus.busy _ => true
  | _ => false

/-- The number of lookups in flight in a pool state. -/
def inFlight {R : Type} (s : PoolState R) : Nat :=
  (s.workers.filter WStatus.isBusy).length

/-- The pool invariant maintained by every step (for the proofs below). -/
structure PoolInv {R : Type} (n : Nat) (f : Nat → R) (C : Nat) (s : PoolState R) : Prop where
  cursor_le : s.cursor ≤ n
  results_len : s.results.length = n
  workers_len : s.workers.length = min C n
  unclaimed : ∀ i : Nat, s.cursor ≤ i → i < n → s.results[i]? = some none
  busy_lt : ∀ w i : Nat, s.workers[w]? = some (WStatus.busy i) → i < s.cursor
  busy_unres : ∀ w i : Nat, s.workers[w]? = some (WStatus.busy i) → s.results[i]? = some none
  busy_uniq : ∀ w w' i : Nat, s.workers[w]? = some (WStatus.busy i) →
      s.workers[w']? = some (WStatus.busy i) → w = w'
  claimed : ∀ i : Nat, i < s.cursor →
      s.results[i]? = some (some (f i)) ∨ ∃ w : Nat, s.workers[w]? = some (WStatus.busy i)
  done_cur : ∀ w : Nat, s.workers[w]? = some WStatus.done → n ≤ s.cursor

/-! ### Concrete upstream environments used by the witnesses -/

/-- A response with the given status and a body that is not valid JSON. -/
def respOf (status : Nat) (text : String) : Response :=
  ⟨status, text, Except.error "Unexpected end of JSON input"⟩

/-- A 200 response carrying the given JSON body. -/
def resp200 (j : Json) : Response := ⟨200, "OK", Except.ok j⟩

/-- A search payload `{"IdentifierList":{"CID":[...]}}`. -/
def searchJson (cids : List Int) : Json := ⟨some cids, none⟩

/-- A properties payload `{"PropertyTable":{"Properties":[...]}}`. -/
def propsJson (ps : List PropRecord) : Json := ⟨none, some ps⟩

/-- Two rate-limited responses followed by a success. -/
def envTwo429 : Nat → Response :=
  fun i => if i < 2 then respOf 429 "Too Many Requests" else resp200 (searchJson [180])

/-- Nothing but 503 responses. -/
def env503 : Nat → Response := fun _ => respOf 503 "Service Unavailable"

/-- The property record the witnesses use (formaldehyde, CID 180). -/
def formaldehydeProps : PropRecord :=
  ⟨180, some "formaldehyde", some "Formaldehyde", some "CH2O", some "C=O", none⟩

/-- An upstream that resolves `50-00-0` to CID 180 and serves its
properties. -/
def envFormaldehyde : UpstreamEnv :=
  ⟨fun _ => resp200 (searchJson [180]), fun _ _ => resp200 (propsJson [formaldehydeProps])⟩

/-- An upstream whose search succeeds with an empty CID list. -/
def envEmptyList : UpstreamEnv :=
  ⟨fun _ => resp200 (searchJson []), fun _ _ => respOf 400 "Bad Request"⟩

/-- An upstream whose search yields CID 180 but whose property table is
empty. -/
def envNoProps : UpstreamEnv :=
  ⟨fun _ => resp200 (searchJson [180]), fun _ _ => resp200 (propsJson [])⟩

/-- An upstream whose search request always fails with a server error. -/
def envServerError : UpstreamEnv :=
  ⟨fun _ => respOf 500 "Internal Server Error", fun _ _ => respOf 500 "Internal Server Error"⟩

/-- The successful output row the witnesses obtain for `50-00-0`. -/
def row50 : OutputRow :=
  ⟨"50-00-0", "Formaldehyde", "C=O", "CH2O", imageFormula 180, "success", none⟩

/-- An upstream assignment sending every identifier to `envFormaldehyde`. -/
def envOf50 : String → UpstreamEnv := fun _ => envFormaldehyde

/-- Like `envFormaldehyde`, but the search returns two CIDs. -/
def envTwoCids : UpstreamEnv :=
  ⟨fun _ => resp200 (searchJson [180, 999]), envFormaldehyde.props⟩

/-- An upstream whose search returns the single CID `0`. -/
def envZeroCid : UpstreamEnv :=
  ⟨fun _ => resp200 (searchJson [0]), envFormaldehyde.props⟩

/-- The terminal pool state of a one-item run used by the witnesses. -/
def pool50End : PoolState OutputRow := ⟨1, [some row50], [WStatus.done]⟩

/-! ## Helper lemmas -/

theorem dropWhile_len_le {α : Type} (p : α → Bool) (l : List α) :
    (l.dropWhile p).length ≤ l.length := by
  induction l with
  | nil => simp
  | cons a t ih =>
    rw [List.dropWhile_cons]
    split
    · exact Nat.le_succ_of_le ih
    · exact Nat.le_refl _

theorem dropWhile_self_idem {α : Type} (p : α → Bool) (l : List α) :
    (l.dropWhile p).dropWhile p = l.dropWhile p := by
  induction l with
  | nil => rfl
  | cons a t ih =>
    rw [List.dropWhile_cons]
    split
    · exact ih
    · rw [List.dropWhile_cons]
      simp [*]

theorem exists_prepend_dropWhile {α : Type} (p : α → Bool) (l : List α) :
    ∃ u, u ++ l.dropWhile p = l := by
  induction l with
  | nil => exact ⟨[], rfl⟩
  | cons a t ih =>
    rw [List.dropWhile_cons]
    split
    · obtain ⟨u, hu⟩ := ih
      exact ⟨a :: u, by simp [hu]⟩
    · exact ⟨[], rfl⟩

theorem head_false_of_stable {α : Type} (p : α → Bool) (c : α) (t : List α)
    (h : (c :: t).dropWhile p = c :: t) : p c = false := by
  by_contra hc
  rw [Bool.not_eq_false] at hc
  rw [List.dropWhile_cons, if_pos hc] at h
  have hle := dropWhile_len_le p t
  have := congrArg List.length h
  simp at this
  omega

theorem stable_of_decomp {α : Type} (p : α → Bool) (cpre u A : List α)
    (hA : A.dropWhile p = A) (hdecomp : cpre ++ u = A) : cpre.dropWhile p = cpre := by
  cases cpre with
  | nil => rfl
  | cons c t =>
    subst hdecomp
    have hcf : p c = false := head_false_of_stable p c (t ++ u) hA
    rw [List.dropWhile_cons, if_neg (by simp [hcf])]

theorem trimL_idem (l : List Char) : trimL (trimL l) = trimL l := by
  have hA : (l.dropWhile Char.isWhitespace).dropWhile Char.isWhitespace
      = l.dropWhile Char.isWhitespace := dropWhile_self_idem _ _
  obtain ⟨u, hu⟩ :=
    exists_prepend_dropWhile Char.isWhitespace (l.dropWhile Char.isWhitespace).reverse
  have hTA : trimL l ++ u.reverse = l.dropWhile Char.isWhitespace := by
    have h2 := congrArg List.reverse hu
    rw [List.reverse_append] at h2
    simpa [trimL] using h2
  have hT : (trimL l).dropWhile Char.isWhitespace = trimL l :=
    stable_of_decomp _ _ _ _ hA hTA
  calc trimL (trimL l)
      = (((trimL l).dropWhile Char.isWhitespace).reverse.dropWhile
          Char.isWhitespace).reverse := rfl
    _ = ((trimL l).reverse.dropWhile Char.isWhitespace).reverse := by rw [hT]
    _ = ((((l.dropWhile Char.isWhitespace).reverse.dropWhile
          Char.isWhitespace).reverse.reverse).dropWhile Char.isWhitespace).reverse := rfl
    _ = ((l.dropWhile Char.isWhitespace).reverse.dropWhile Char.isWhitespace).reverse := by
          rw [List.reverse_reverse, dropWhile_self_idem]
    _ = trimL l := rfl

theorem trimS_idem (s : String) : trimS (trimS s) = trimS s := by
  unfold trimS
  exact congrArg String.mk (trimL_idem s.data)

/-! ## Claim C1 -/

/-- Claim C1 as stated is false on the code: for an input path lacking a
`.csv` suffix, `replace(/\.csv$/i, "_results.csv")` finds no match and
returns the path unchanged, so nothing is appended. -/
theorem deriveOutputPath_no_suffix_cex :
    deriveOutputPath "compounds" = "compounds" ∧
    deriveOutputPath "compounds" ≠ "compounds.csv" ∧
    deriveOutputPath "compounds" ≠ "compounds_results.csv" := by
  refine ⟨by decide, by decide, by decide⟩

/-- Claim C1 (amended): with no explicit output path, an input path that
decomposes as `stem ++ suffix` with `suffix` equal to `.csv` up to case has
output path `stem ++ "_results.csv"`; an input path admitting no such
decomposition is used unchanged as the output path. -/
theorem deriveOutputPath_spec (s : String) :
    (∀ stem suffix : List Char, s.data = stem ++ suffix →
        suffix.map Char.toLower = csvSuffixChars →
        deriveOutputPath s = String.mk (stem ++ "_results.csv".data)) ∧
    ((¬ ∃ stem suffix : List Char, s.data = stem ++ suffix ∧
        suffix.map Char.toLower = csvSuffixChars) →
      deriveOutputPath s = s) := by
  constructor
  · intro stem suffix hdecomp hlow
    have hlen4 : suffix.length = 4 := by
      have := congrArg List.length hlow
      simpa [csvSuffixChars] using this
    have hslen : s.data.length = stem.length + 4 := by
      rw [hdecomp, List.length_append, hlen4]
    have hdrop : s.data.drop (s.data.length - 4) = suffix := by
      rw [hdecomp, List.length_append, hlen4, Nat.add_sub_cancel]
      exact List.drop_left stem suffix
    have htake : s.data.take (s.data.length - 4) = stem := by
      rw [hdecomp, List.length_append, hlen4, Nat.add_sub_cancel]
      exact List.take_left stem suffix
    unfold deriveOutputPath
    rw [if_pos ⟨by omega, by rw [hdrop]; exact hlow⟩, htake]
  · intro hno
    unfold deriveOutputPath
    rw [if_neg]
    intro ⟨hge, hmap⟩
    exact hno ⟨s.data.take (s.data.length - 4), s.data.drop (s.data.length - 4),
      (List.take_append_drop _ _).symm, hmap⟩

/-- Witness: the amended C1 applied to `foo.csv` and to `foo.txt`. -/
theorem deriveOutputPath_spec_witness :
    deriveOutputPath "foo.csv" = "foo_results.csv" ∧ deriveOutputPath "foo.txt" = "foo.txt" := by
  constructor
  · exact ((deriveOutputPath_spec "foo.csv").1 ['f', 'o', 'o'] ['.', 'c', 's', 'v']
      (by decide) (by decide)).trans (by decide)
  · refine (deriveOutputPath_spec "foo.txt").2 ?_
    rintro ⟨stem, suffix, heq, hlow⟩
    have hlen : suffix.length = 4 := by
      have := congrArg List.length hlow
      simpa [csvSuffixChars] using this
    have hsl : stem.length = 3 := by
      have := congrArg List.length heq
      rw [List.length_append, hlen] at this
      simp at this
      omega
    have hsuf : suffix = ['.', 't', 'x', 't'] := by
      have hdr : List.drop stem.length "foo.txt".data = suffix := by
        rw [heq]
        exact List.drop_left stem suffix
      rw [hsl] at hdr
      rw [← hdr]
      decide
    rw [hsuf] at hlow
    exact absurd hlow (by decide)

/-! ## Claim C6 -/

theorem rowGet_trimRecord (r : Row) (k : String) :
    rowGet (trimRecord r) k = (rowGet r k).map trimS := by
  induction r with
  | nil => rfl
  | cons p t ih =>
    by_cases h : p.fst == k
    · simp [rowGet, trimRecord, List.find?_cons_of_pos, h]
    · unfold rowGet trimRecord at ih ⊢
      rw [List.map_cons, List.find?_cons_of_neg _ (by simpa using h),
        List.find?_cons_of_neg _ (by simpa using h)]
      exact ih

theorem chain_firstNonEmpty (os : List (Option String)) :
    (if os.foldr (fun o acc => jsOr (o.map trimS) acc) "" = "" then none
     else some (trimS (os.foldr (fun o acc => jsOr (o.map trimS) acc) ""))) =
    firstNonEmptyTrimmed os := by
  induction os with
  | nil => simp [firstNonEmptyTrimmed]
  | cons o rest ih =>
    cases o with
    | none => simpa [firstNonEmptyTrimmed, jsOr] using ih
    | some v =>
      by_cases hv : trimS v = ""
      · rw [List.foldr_cons]
        simpa [firstNonEmptyTrimmed, jsOr, hv] using ih
      · simp [firstNonEmptyTrimmed, jsOr, hv, trimS_idem]

theorem pickCas_trim_eq (r : Row) :
    (fun r' =>
      let c := pickCas r'
      if c = "" then none else some (trimS c)) (trimRecord r) = specRowIdentifier r := by
  have hp : pickCas (trimRecord r) =
      [rowGet r "cas_number", rowGet r "CAS", rowGet r "cas",
        rowGet r "CAS Number"].foldr (fun o acc => jsOr (o.map trimS) acc) "" := by
    simp [pickCas, rowGet_trimRecord]
  show (if pickCas (trimRecord r) = "" then none else some (trimS (pickCas (trimRecord r)))) =
      specRowIdentifier r
  rw [hp]
  exact chain_firstNonEmpty _

/-- Claim C6: the input reader checks `cas_number`, `CAS`, `cas`,
`CAS Number` in that priority order and takes the first non-empty trimmed
value per row, silently skipping rows with no recognized non-empty value;
in particular a CSV whose only recognized header is `CAS Number` still
yields its identifiers, and a row whose recognized columns are all empty
yields nothing. -/
theorem readCasNumbersFromCsv_spec (records : List Row) :
    readCasNumbersFromCsv records = records.filterMap specRowIdentifier ∧
    readCasNumbersFromCsv [[("CAS Number", "50-00-0")], [("name", "formaldehyde"),
      ("cas_number", ""), ("CAS", ""), ("cas", ""), ("CAS Number", "")]] = ["50-00-0"] := by
  constructor
  · unfold readCasNumbersFromCsv
    rw [List.filterMap_map]
    have hfun : ((fun r =>
        let c := pickCas r
        if c = "" then none else some (trimS c)) ∘ trimRecord) = specRowIdentifier := by
      funext r
      exact pickCas_trim_eq r
    rw [hfun]
  · decide

/-- Witness: the reader specification applied to a concrete record list. -/
theorem readCasNumbersFromCsv_spec_witness :
    readCasNumbersFromCsv [[("CAS", " 64-17-5 ")], [("other", "x")]] =
      [[("CAS", " 64-17-5 ")], [("other", "x")]].filterMap specRowIdentifier ∧
    readCasNumbersFromCsv [[("CAS Number", "50-00-0")], [("name", "formaldehyde"),
      ("cas_number", ""), ("CAS", ""), ("cas", ""), ("CAS Number", "")]] = ["50-00-0"] :=
  readCasNumbersFromCsv_spec [[("CAS", " 64-17-5 ")], [("other", "x")]]

/-! ## Claim C3 -/

theorem fetchLoop_attempts_le (env : Nat → Response) (delay i fuel : Nat) :
    (fetchLoop env delay i fuel).attempts ≤ fuel := by
  induction fuel generalizing i with
  | zero => simp [fetchLoop]
  | succ n ih =>
    rw [fetchLoop]
    split
    · simp
    · split
      · simpa using Nat.succ_le_succ (ih (i + 1))
      · split
        · simp
        · simp

theorem fetchLoop_retry_run (env : Nat → Response) (delay : Nat) (k : Nat) :
    ∀ i fuel : Nat, k ≤ fuel →
    (∀ j : Nat, j < k → (env (i + j)).ok = false ∧
        ((env (i + j)).status = 503 ∨ (env (i + j)).status = 429)) →
    fetchLoop env delay i fuel =
      ⟨(fetchLoop env delay (i + k) (fuel - k)).result,
       (fetchLoop env delay (i + k) (fuel - k)).attempts + k,
       (List.range k).map (fun j => delay * (i + j + 1))
         ++ (fetchLoop env delay (i + k) (fuel - k)).sleeps⟩ := by
  induction k with
  | zero => intro i fuel _ _; simp
  | succ m ih =>
    intro i fuel hk hfail
    match fuel, hk with
    | f + 1, hk =>
      have h0ok : (env i).ok = false := by simpa using (hfail 0 (by omega)).1
      have h0st : (env i).status = 503 ∨ (env i).status = 429 := by
        simpa using (hfail 0 (by omega)).2
      have hrec := ih (i + 1) f (by omega) (fun j hj => by
        have h := hfail (j + 1) (by omega)
        constructor
        · have := h.1
          rw [show i + (j + 1) = i + 1 + j by omega] at this
          exact this
        · have := h.2
          rw [show i + (j + 1) = i + 1 + j by omega] at this
          exact this)
      rw [fetchLoop]
      simp only [h0ok, Bool.false_eq_true, if_false, if_pos h0st]
      rw [hrec]
      have hQ : fetchLoop env delay (i + (m + 1)) (f + 1 - (m + 1)) =
          fetchLoop env delay (i + 1 + m) (f - m) := by
        rw [show i + (m + 1) = i + 1 + m from by omega, Nat.succ_sub_succ]
      rw [hQ]
      simp only [FetchOutcome.mk.injEq]
      refine ⟨trivial, by omega, ?_⟩
      rw [List.range_succ_eq_map, List.map_cons, List.map_map, List.cons_append]
      refine congrArg₂ (fun a b => a :: b) (by ring_nf) ?_
      refine congrArg (fun x => x ++ (fetchLoop env delay (i + 1 + m) (f - m)).sleeps) ?_
      refine List.map_congr_left ?_
      intro j _
      exact congrArg (fun t => delay * t) (by omega)

/-- Unfolded form of `fetchWithRetry` (with the source defaults, 3 retries
and 1000 ms base delay) after `k` rate-limited attempts. -/
theorem fetchWithRetry_after (env : Nat → Response) (k : Nat) (hk : k ≤ 3)
    (hfail : ∀ j : Nat, j < k → (env j).ok = false ∧
        ((env j).status = 503 ∨ (env j).status = 429)) :
    fetchWithRetry env 3 1000 =
      ⟨(fetchLoop env 1000 k (3 - k)).result,
       (fetchLoop env 1000 k (3 - k)).attempts + k,
       (List.range k).map (fun j => 1000 * (j + 1))
         ++ (fetchLoop env 1000 k (3 - k)).sleeps⟩ := by
  have h := fetchLoop_retry_run env 1000 k 0 3 hk (fun j hj => by simpa using hfail j hj)
  rw [fetchWithRetry, h]
  simp

/-- Claim C3: `fetchWithRetry` (at its call sites: 3 retries, 1000 ms base
delay) makes at most 3 attempts; after `k` rate-limited (503/429) attempts,
each preceded by a backoff sleep of `(attempt index + 1) × 1000` ms, a 2xx
response is returned as is, a 404 fails immediately as "Compound not found
in PubChem", and any other non-2xx status fails immediately with an
`HTTP <status>: <statusText>` message; three rate-limited responses exhaust
the attempts and fail with "Max retries exceeded"; concretely, two 429s then
a 200 return the 200 response after sleeps `[1000, 2000]`, and three 503s
fail with "Max retries exceeded" after sleeps `[1000, 2000, 3000]`. -/
theorem fetchWithRetry_policy (env : Nat → Response) :
    (fetchWithRetry env 3 1000).attempts ≤ 3
    ∧ (∀ k : Nat, k < 3 →
        (∀ j : Nat, j < k → (env j).ok = false ∧
            ((env j).status = 503 ∨ (env j).status = 429)) →
        ((env k).ok = true →
            fetchWithRetry env 3 1000 =
              ⟨Except.ok (env k), k + 1, (List.range k).map (fun j => 1000 * (j + 1))⟩)
        ∧ ((env k).status = 404 →
            fetchWithRetry env 3 1000 =
              ⟨Except.error FetchError.notFound, k + 1,
               (List.range k).map (fun j => 1000 * (j + 1))⟩)
        ∧ ((env k).ok = false → (env k).status ≠ 404 →
            ¬((env k).status = 503 ∨ (env k).status = 429) →
            fetchWithRetry env 3 1000 =
              ⟨Except.error (FetchError.httpStatus (env k).status (env k).statusText), k + 1,
               (List.range k).map (fun j => 1000 * (j + 1))⟩))
    ∧ ((∀ j : Nat, j < 3 → (env j).ok = false ∧
          ((env j).status = 503 ∨ (env j).status = 429)) →
        fetchWithRetry env 3 1000 = ⟨Except.error FetchError.maxRetries, 3, [1000, 2000, 3000]⟩)
    ∧ FetchError.notFound.message = "Compound not found in PubChem"
    ∧ FetchError.maxRetries.message = "Max retries exceeded"
    ∧ (∀ st : Nat, ∀ t : String,
        (FetchError.httpStatus st t).message = "HTTP " ++ toString st ++ ": " ++ t)
    ∧ fetchWithRetry envTwo429 3 1000 = ⟨Except.ok (resp200 (searchJson [180])), 3, [1000, 2000]⟩
    ∧ fetchWithRetry env503 3 1000 = ⟨Except.error FetchError.maxRetries, 3, [1000, 2000, 3000]⟩ := by
  refine ⟨fetchLoop_attempts_le env 1000 0 3, ?_, ?_, rfl, rfl, fun st t => rfl,
    by decide, by decide⟩
  · intro k hk hpre
    have hbase := fetchWithRetry_after env k (by omega) hpre
    rw [show 3 - k = (2 - k) + 1 from by omega] at hbase
    refine ⟨?_, ?_, ?_⟩
    · intro hok
      rw [hbase, fetchLoop]
      simp [hok, Nat.add_comm]
    · intro h404
      have hok : (env k).ok = false := by simp [Response.ok, h404]
      rw [hbase, fetchLoop]
      simp [hok, h404, Nat.add_comm]
    · intro hok h404 hretry
      rw [hbase, fetchLoop]
      simp [hok, h404, hretry, Nat.add_comm]
  · intro hall
    have hbase := fetchWithRetry_after env 3 (by omega) hall
    rw [hbase]
    simp [fetchLoop]
    decide

/-- Witness: the retry policy applied at the all-503 environment and the
two-429-then-200 environment. -/
theorem fetchWithRetry_policy_witness :
    fetchWithRetry env503 3 1000 = ⟨Except.error FetchError.maxRetries, 3, [1000, 2000, 3000]⟩ ∧
    fetchWithRetry envTwo429 3 1000 = ⟨Except.ok (resp200 (searchJson [180])), 3, [1000, 2000]⟩ :=
  ⟨(fetchWithRetry_policy env503).2.2.1 (fun _ _ => ⟨rfl, Or.inl rfl⟩),
   (fetchWithRetry_policy envTwo429).2.2.2.2.2.2.1⟩

/-! ## The lookup result: claims C7, C5, C4, C10 -/

theorem getCompoundByCas_success (env : UpstreamEnv) (r : Response) (j : Json)
    (cid : Int) (rest : List Int) (pr : Response) (pj : Json) (props : PropRecord)
    (prest : List PropRecord)
    (h1 : (fetchWithRetry env.search 3 1000).result = Except.ok r)
    (h2 : r.jsonResult = Except.ok j)
    (h3 : j.identifierListCID = some (cid :: rest))
    (h4 : cid ≠ 0)
    (h5 : (fetchWithRetry (env.props cid) 3 1000).result = Except.ok pr)
    (h6 : pr.jsonResult = Except.ok pj)
    (h7 : pj.propertyTableProperties = some (props :: prest)) :
    getCompoundByCas env =
      ⟨some ⟨jsOr props.Title (jsOr props.IUPACName ""),
             jsOr props.CanonicalSMILES (jsOr props.ConnectivitySMILES ""),
             jsOr props.MolecularFormula "",
             imageFormula cid⟩, none⟩ := by
  simp [getCompoundByCas, propsStage, h1, h2, h3, h4, h5, h6, h7]

theorem firstAvailable_pair (a b : Option String) :
    firstAvailable [a, b] = jsOr a (jsOr b "") := by
  cases a <;> cases b <;> simp [firstAvailable, jsOr]

theorem firstAvailable_single (a : Option String) : firstAvailable [a] = jsOr a "" := by
  cases a <;> simp [firstAvailable, jsOr]

/-- Claim C7: a successful lookup's name is the first available of `Title`
then `IUPACName` else empty, its structure notation is the first available
of `CanonicalSMILES` then `ConnectivitySMILES` else empty, its formula
defaults to empty, and its image reference is exactly the fixed
`=IMAGE("https://pubchem.ncbi.nlm.nih.gov/rest/pug/compound/cid/<CID>/PNG")`
template with the numeric CID substituted. -/
theorem lookup_success_fields (env : UpstreamEnv) (r : Response) (j : Json)
    (cid : Int) (rest : List Int) (pr : Response) (pj : Json) (props : PropRecord)
    (prest : List PropRecord)
    (h1 : (fetchWithRetry env.search 3 1000).result = Except.ok r)
    (h2 : r.jsonResult = Except.ok j)
    (h3 : j.identifierListCID = some (cid :: rest))
    (h4 : cid ≠ 0)
    (h5 : (fetchWithRetry (env.props cid) 3 1000).result = Except.ok pr)
    (h6 : pr.jsonResult = Except.ok pj)
    (h7 : pj.propertyTableProperties = some (props :: prest)) :
    getCompoundByCas env =
      ⟨some ⟨firstAvailable [props.Title, props.IUPACName],
             firstAvailable [props.CanonicalSMILES, props.ConnectivitySMILES],
             firstAvailable [props.MolecularFormula],
             "=IMAGE(\"https://pubchem.ncbi.nlm.nih.gov/rest/pug/compound/cid/"
               ++ toString cid ++ "/PNG\")"⟩, none⟩ := by
  rw [getCompoundByCas_success env r j cid rest pr pj props prest h1 h2 h3 h4 h5 h6 h7]
  simp [firstAvailable_pair, firstAvailable_single, imageFormula]

/-- Witness: the success field assembly evaluated for CID 180. -/
theorem lookup_success_fields_witness :
    getCompoundByCas envFormaldehyde =
      ⟨some ⟨"Formaldehyde", "C=O", "CH2O",
             "=IMAGE(\"https://pubchem.ncbi.nlm.nih.gov/rest/pug/compound/cid/180/PNG\")"⟩,
       none⟩ :=
  (lookup_success_fields envFormaldehyde (resp200 (searchJson [180])) (searchJson [180])
    180 [] (resp200 (propsJson [formaldehydeProps])) (propsJson [formaldehydeProps])
    formaldehydeProps [] rfl rfl rfl (by decide) rfl rfl rfl).trans (by decide)

/-- Claim C5: a name-to-ID lookup yielding no numeric ID fails with
"No compound found for this CAS number", and a found numeric ID whose
properties request returns no record fails with
"Could not retrieve compound properties". -/
theorem lookup_failure_messages (env : UpstreamEnv) :
    (∀ r j, (fetchWithRetry env.search 3 1000).result = Except.ok r →
        r.jsonResult = Except.ok j → j.identifierListCID.bind List.head? = none →
        getCompoundByCas env = ⟨none, some "No compound found for this CAS number"⟩)
    ∧ (∀ r j cid rest pr pj, (fetchWithRetry env.search 3 1000).result = Except.ok r →
        r.jsonResult = Except.ok j → j.identifierListCID = some (cid :: rest) → cid ≠ 0 →
        (fetchWithRetry (env.props cid) 3 1000).result = Except.ok pr →
        pr.jsonResult = Except.ok pj → pj.propertyTableProperties.bind List.head? = none →
        getCompoundByCas env = ⟨none, some "Could not retrieve compound properties"⟩)
    ∧ getCompoundByCas envEmptyList = ⟨none, some "No compound found for this CAS number"⟩
    ∧ getCompoundByCas envNoProps = ⟨none, some "Could not retrieve compound properties"⟩ := by
  refine ⟨?_, ?_, by decide, by decide⟩
  · intro r j h1 h2 h3
    simp [getCompoundByCas, h1, h2, h3]
  · intro r j cid rest pr pj h1 h2 h3 h4 h5 h6 h7
    simp [getCompoundByCas, propsStage, h1, h2, h3, h4, h5, h6, h7]

/-- Witness: the failure messages evaluated at an empty CID list and an
empty property table. -/
theorem lookup_failure_messages_witness :
    getCompoundByCas envEmptyList = ⟨none, some "No compound found for this CAS number"⟩ ∧
    getCompoundByCas envNoProps = ⟨none, some "Could not retrieve compound properties"⟩ :=
  ⟨(lookup_failure_messages envEmptyList).1 (resp200 (searchJson [])) (searchJson [])
      rfl rfl rfl,
   (lookup_failure_messages envNoProps).2.1 (resp200 (searchJson [180])) (searchJson [180])
      180 [] (resp200 (propsJson [])) (propsJson []) rfl rfl rfl (by decide) rfl rfl rfl⟩

theorem getCompoundByCas_shape (env : UpstreamEnv) :
    (∃ d, getCompoundByCas env = ⟨some d, none⟩) ∨
      (∃ m, getCompoundByCas env = ⟨none, some m⟩) := by
  unfold getCompoundByCas propsStage
  repeat' split
  all_goals first
    | exact Or.inl ⟨_, rfl⟩
    | exact Or.inr ⟨_, rfl⟩

/-- Claim C4: every per-identifier lookup yields exactly one of two shapes —
success with a populated record and no error, or failure with an error
string and no record — and both a failing search request and a failing
properties request are caught and converted into a failed result for that
row (the thrown message becomes the row error), never propagated. -/
theorem lookup_two_shapes (casN : String) (env : UpstreamEnv) :
    ((∃ d, getCompoundByCas env = ⟨some d, none⟩) ∨
      (∃ m, getCompoundByCas env = ⟨none, some m⟩))
    ∧ ((buildOutputRow casN (getCompoundByCas env)).status = "success" ∧
        (buildOutputRow casN (getCompoundByCas env)).error = none ∨
       (buildOutputRow casN (getCompoundByCas env)).status = "failed" ∧
        (buildOutputRow casN (getCompoundByCas env)).error ≠ none ∧
        (buildOutputRow casN (getCompoundByCas env)).chemical_name = "" ∧
        (buildOutputRow casN (getCompoundByCas env)).smiles_code = "" ∧
        (buildOutputRow casN (getCompoundByCas env)).molecular_formula = "" ∧
        (buildOutputRow casN (getCompoundByCas env)).structure_image_url = "")
    ∧ (∀ e, (fetchWithRetry env.search 3 1000).result = Except.error e →
        getCompoundByCas env = ⟨none, some (FetchError.message e)⟩)
    ∧ (∀ cid r j rest e, (fetchWithRetry env.search 3 1000).result = Except.ok r →
        r.jsonResult = Except.ok j → j.identifierListCID = some (cid :: rest) → cid ≠ 0 →
        (fetchWithRetry (env.props cid) 3 1000).result = Except.error e →
        getCompoundByCas env = ⟨none, some (FetchError.message e)⟩) := by
  refine ⟨getCompoundByCas_shape env, ?_, ?_, ?_⟩
  · rcases getCompoundByCas_shape env with ⟨d, hd⟩ | ⟨m, hm⟩
    · left
      rw [hd]
      simp [buildOutputRow]
    · right
      rw [hm]
      simp [buildOutputRow]
  · intro e h1
    simp [getCompoundByCas, h1]
  · intro cid r j rest e h1 h2 h3 h4 h5
    simp [getCompoundByCas, propsStage, h1, h2, h3, h4, h5]

/-- Witness: a search request failing with HTTP 500 becomes a failed result
carrying the thrown message. -/
theorem lookup_two_shapes_witness :
    getCompoundByCas envServerError = ⟨none, some "HTTP 500: Internal Server Error"⟩ :=
  ((lookup_two_shapes "50-00-0" envServerError).2.2.1
    (FetchError.httpStatus 500 "Internal Server Error") rfl).trans (by decide)

/-- Claim C10: only the first CID of the returned list is used — the lookup
result is unchanged if the tail of the CID list is dropped, and on success
the image reference embeds that first CID — and, because `if (!cid)` is a
truthiness check, a first CID equal to `0` is reported as "No compound
found for this CAS number". -/
theorem cid_truthiness (env env2 : UpstreamEnv) :
    (∀ r j rest, (fetchWithRetry env.search 3 1000).result = Except.ok r →
        r.jsonResult = Except.ok j → j.identifierListCID = some ((0 : Int) :: rest) →
        getCompoundByCas env = ⟨none, some "No compound found for this CAS number"⟩)
    ∧ (∀ cid rest r j r2 j2, cid ≠ (0 : Int) →
        (fetchWithRetry env.search 3 1000).result = Except.ok r →
        r.jsonResult = Except.ok j → j.identifierListCID = some (cid :: rest) →
        (fetchWithRetry env2.search 3 1000).result = Except.ok r2 →
        r2.jsonResult = Except.ok j2 → j2.identifierListCID = some [cid] →
        env2.props = env.props →
        getCompoundByCas env = getCompoundByCas env2)
    ∧ (∀ cid rest r j pr pj props prest, cid ≠ (0 : Int) →
        (fetchWithRetry env.search 3 1000).result = Except.ok r →
        r.jsonResult = Except.ok j → j.identifierListCID = some (cid :: rest) →
        (fetchWithRetry (env.props cid) 3 1000).result = Except.ok pr →
        pr.jsonResult = Except.ok pj → pj.propertyTableProperties = some (props :: prest) →
        ∃ d, getCompoundByCas env = ⟨some d, none⟩ ∧
          d.structure_image_url = imageFormula cid) := by
  refine ⟨?_, ?_, ?_⟩
  · intro r j rest h1 h2 h3
    simp [getCompoundByCas, h1, h2, h3]
  · intro cid rest r j r2 j2 hc h1 h2 h3 h4 h5 h6 hprops
    have hL : getCompoundByCas env = propsStage (env.props cid) cid := by
      simp [getCompoundByCas, h1, h2, h3, hc]
    have hR : getCompoundByCas env2 = propsStage (env2.props cid) cid := by
      simp [getCompoundByCas, h4, h5, h6, hc]
    rw [hL, hR, hprops]
  · intro cid rest r j pr pj props prest hc h1 h2 h3 h4 h5 h6
    exact ⟨_, getCompoundByCas_success env r j cid rest pr pj props prest
      h1 h2 h3 hc h4 h5 h6, rfl⟩

/-- Witness: the truthiness behaviour at CID `0` and the first-CID
selection with a two-element CID list. -/
theorem cid_truthiness_witness :
    getCompoundByCas envZeroCid = ⟨none, some "No compound found for this CAS number"⟩ ∧
    getCompoundByCas envTwoCids = getCompoundByCas envFormaldehyde :=
  ⟨(cid_truthiness envZeroCid envZeroCid).1 (resp200 (searchJson [0])) (searchJson [0]) []
      rfl rfl rfl,
   (cid_truthiness envTwoCids envFormaldehyde).2.1 180 [999]
      (resp200 (searchJson [180, 999])) (searchJson [180, 999])
      (resp200 (searchJson [180])) (searchJson [180])
      (by decide) rfl rfl rfl rfl rfl rfl rfl⟩

/-! ## The worker pool: claims C2, C8, C9 -/

theorem lt_len_of_getElem? {α : Type} (l : List α) (w : Nat) (a : α) (h : l[w]? = some a) :
    w < l.length := by
  by_contra hc
  rw [List.getElem?_eq_none (by omega)] at h
  exact Option.noConfusion h

theorem getElem?_set_cases {α : Type} (l : List α) (w v : Nat) (a : α) (hw : w < l.length) :
    (l.set w a)[v]? = if v = w then some a else l[v]? := by
  by_cases h : v = w
  · subst h
    rw [if_pos rfl]
    exact List.getElem?_set_self hw
  · rw [if_neg h]
    exact List.getElem?_set_ne (fun hh => h hh.symm)

theorem getElem?_replicate_val {α : Type} (m w : Nat) (a b : α)
    (h : (List.replicate m a)[w]? = some b) : b = a := by
  by_cases hw : w < m
  · rw [List.getElem?_replicate_of_lt hw] at h
    exact (Option.some.inj h).symm
  · rw [List.getElem?_eq_none (by rw [List.length_replicate]; omega)] at h
    exact Option.noConfusion h

theorem poolInv_init (R : Type) (n C : Nat) (f : Nat → R) : PoolInv n f C (poolInit R n C) := by
  refine ⟨Nat.zero_le n, List.length_replicate n none, List.length_replicate _ _,
    ?_, ?_, ?_, ?_, ?_, ?_⟩
  · intro i _ hin
    exact List.getElem?_replicate_of_lt hin
  · intro w i hv
    exact absurd (getElem?_replicate_val _ _ _ _ hv) (by simp)
  · intro w i hv
    exact absurd (getElem?_replicate_val _ _ _ _ hv) (by simp)
  · intro w w' i hv _
    exact absurd (getElem?_replicate_val _ _ _ _ hv) (by simp)
  · intro i hi
    simp [poolInit] at hi
  · intro w hv
    exact absurd (getElem?_replicate_val _ _ _ _ hv) (by simp)

theorem poolInv_step {R : Type} {n C : Nat} {f : Nat → R} {s t : PoolState R}
    (inv : PoolInv n f C s) (st : PoolStep n f s t) : PoolInv n f C t := by
  cases st with
  | claim w hw hlt =>
    have hwlen : w < s.workers.length := lt_len_of_getElem? _ _ _ hw
    refine ⟨hlt, inv.results_len, ?_, ?_, ?_, ?_, ?_, ?_, ?_⟩
    · rw [List.length_set]
      exact inv.workers_len
    · intro i hi hin
      have hi' : s.cursor + 1 ≤ i := hi
      exact inv.unclaimed i (by omega) hin
    · intro v i hv
      rw [getElem?_set_cases _ _ _ _ hwlen] at hv
      by_cases hvw : v = w
      · rw [if_pos hvw] at hv
        simp only [Option.some.injEq, WStatus.busy.injEq] at hv
        show i < s.cursor + 1
        omega
      · rw [if_neg hvw] at hv
        have := inv.busy_lt v i hv
        show i < s.cursor + 1
        omega
    · intro v i hv
      rw [getElem?_set_cases _ _ _ _ hwlen] at hv
      by_cases hvw : v = w
      · rw [if_pos hvw] at hv
        simp only [Option.some.injEq, WStatus.busy.injEq] at hv
        rw [← hv]
        exact inv.unclaimed s.cursor (Nat.le_refl _) hlt
      · rw [if_neg hvw] at hv
        exact inv.busy_unres v i hv
    · intro v v' i hv hv'
      rw [getElem?_set_cases _ _ _ _ hwlen] at hv hv'
      by_cases hvw : v = w
      · by_cases hv'w : v' = w
        · rw [hvw, hv'w]
        · rw [if_pos hvw] at hv
          rw [if_neg hv'w] at hv'
          simp only [Option.some.injEq, WStatus.busy.injEq] at hv
          have := inv.busy_lt v' i hv'
          omega
      · by_cases hv'w : v' = w
        · rw [if_pos hv'w] at hv'
          rw [if_neg hvw] at hv
          simp only [Option.some.injEq, WStatus.busy.injEq] at hv'
          have := inv.busy_lt v i hv
          omega
        · rw [if_neg hvw] at hv
          rw [if_neg hv'w] at hv'
          exact inv.busy_uniq v v' i hv hv'
    · intro i hi
      have hi' : i < s.cursor + 1 := hi
      by_cases hic : i < s.cursor
      · rcases inv.claimed i hic with hres | ⟨v, hv⟩
        · exact Or.inl hres
        · have hvw : v ≠ w := by
            intro hh
            subst hh
            rw [hw] at hv
            simp at hv
          refine Or.inr ⟨v, ?_⟩
          rw [getElem?_set_cases _ _ _ _ hwlen, if_neg hvw]
          exact hv
      · have hie : i = s.cursor := by omega
        subst hie
        refine Or.inr ⟨w, ?_⟩
        rw [getElem?_set_cases _ _ _ _ hwlen, if_pos rfl]
    · intro v hv
      rw [getElem?_set_cases _ _ _ _ hwlen] at hv
      by_cases hvw : v = w
      · rw [if_pos hvw] at hv
        simp at hv
      · rw [if_neg hvw] at hv
        have := inv.done_cur v hv
        show n ≤ s.cursor + 1
        omega
  | complete w i hw =>
    have hwlen : w < s.workers.length := lt_len_of_getElem? _ _ _ hw
    have hilt : i < s.cursor := inv.busy_lt w i hw
    have hires : s.results[i]? = some none := inv.busy_unres w i hw
    have hirlen : i < s.results.length := lt_len_of_getElem? _ _ _ hires
    refine ⟨inv.cursor_le, ?_, ?_, ?_, ?_, ?_, ?_, ?_, ?_⟩
    · rw [List.length_set]
      exact inv.results_len
    · rw [List.length_set]
      exact inv.workers_len
    · intro q hq hqn
      have hq' : s.cursor ≤ q := hq
      have hqi : q ≠ i := by omega
      rw [getElem?_set_cases _ _ _ _ hirlen, if_neg hqi]
      exact inv.unclaimed q hq' hqn
    · intro v q hv
      rw [getElem?_set_cases _ _ _ _ hwlen] at hv
      by_cases hvw : v = w
      · rw [if_pos hvw] at hv
        simp at hv
      · rw [if_neg hvw] at hv
        exact inv.busy_lt v q hv
    · intro v q hv
      rw [getElem?_set_cases _ _ _ _ hwlen] at hv
      by_cases hvw : v = w
      · rw [if_pos hvw] at hv
        simp at hv
      · rw [if_neg hvw] at hv
        have hq : q ≠ i := by
          intro hqe
          subst hqe
          exact hvw (inv.busy_uniq v w q hv hw)
        rw [getElem?_set_cases _ _ _ _ hirlen, if_neg hq]
        exact inv.busy_unres v q hv
    · intro v v' q hv hv'
      rw [getElem?_set_cases _ _ _ _ hwlen] at hv hv'
      by_cases hvw : v = w
      · rw [if_pos hvw] at hv
        simp at hv
      · by_cases hv'w : v' = w
        · rw [if_pos hv'w] at hv'
          simp at hv'
        · rw [if_neg hvw] at hv
          rw [if_neg hv'w] at hv'
          exact inv.busy_uniq v v' q hv hv'
    · intro q hq
      by_cases hqi : q = i
      · subst hqi
        left
        rw [getElem?_set_cases _ _ _ _ hirlen, if_pos rfl]
      · rcases inv.claimed q hq with hres | ⟨v, hv⟩
        · left
          rw [getElem?_set_cases _ _ _ _ hirlen, if_neg hqi]
          exact hres
        · have hvw : v ≠ w := by
            intro hh
            subst hh
            rw [hw] at hv
            simp only [Option.some.injEq, WStatus.busy.injEq] at hv
            exact hqi hv.symm
          refine Or.inr ⟨v, ?_⟩
          rw [getElem?_set_cases _ _ _ _ hwlen, if_neg hvw]
          exact hv
    · intro v hv
      rw [getElem?_set_cases _ _ _ _ hwlen] at hv
      by_cases hvw : v = w
      · rw [if_pos hvw] at hv
        simp at hv
      · rw [if_neg hvw] at hv
        exact inv.done_cur v hv
  | retire w hw hge =>
    have hwlen : w < s.workers.length := lt_len_of_getElem? _ _ _ hw
    refine ⟨inv.cursor_le, inv.results_len, ?_, inv.unclaimed, ?_, ?_, ?_, ?_, ?_⟩
    · rw [List.length_set]
      exact inv.workers_len
    · intro v q hv
      rw [getElem?_set_cases _ _ _ _ hwlen] at hv
      by_cases hvw : v = w
      · rw [if_pos hvw] at hv
        simp at hv
      · rw [if_neg hvw] at hv
        exact inv.busy_lt v q hv
    · intro v q hv
      rw [getElem?_set_cases _ _ _ _ hwlen] at hv
      by_cases hvw : v = w
      · rw [if_pos hvw] at hv
        simp at hv
      · rw [if_neg hvw] at hv
        exact inv.busy_unres v q hv
    · intro v v' q hv hv'
      rw [getElem?_set_cases _ _ _ _ hwlen] at hv hv'
      by_cases hvw : v = w
      · rw [if_pos hvw] at hv
        simp at hv
      · by_cases hv'w : v' = w
        · rw [if_pos hv'w] at hv'
          simp at hv'
        · rw [if_neg hvw] at hv
          rw [if_neg hv'w] at hv'
          exact inv.busy_uniq v v' q hv hv'
    · intro q hq
      rcases inv.claimed q hq with hres | ⟨v, hv⟩
      · exact Or.inl hres
      · have hvw : v ≠ w := by
          intro hh
          subst hh
          rw [hw] at hv
          simp at hv
        refine Or.inr ⟨v, ?_⟩
        rw [getElem?_set_cases _ _ _ _ hwlen, if_neg hvw]
        exact hv
    · intro v hv
      rw [getElem?_set_cases _ _ _ _ hwlen] at hv
      by_cases hvw : v = w
      · exact hge
      · rw [if_neg hvw] at hv
        exact inv.done_cur v hv

theorem poolInv_reach {R : Type} {n C : Nat} {f : Nat → R} {s : PoolState R}
    (h : PoolReach n f C s) : PoolInv n f C s := by
  induction h with
  | init => exact poolInv_init R n C f
  | step s t _ hst ih => exact poolInv_step ih hst

theorem poolInv_terminal_eq {R : Type} {n C : Nat} {f : Nat → R} {s : PoolState R}
    (hC : 1 ≤ C) (inv : PoolInv n f C s) (hterm : PoolTerminal s) :
    s.results = (List.range n).map (fun i => some (f i)) := by
  have hcur : s.cursor = n := by
    rcases Nat.eq_zero_or_pos n with hn | hn
    · have := inv.cursor_le
      omega
    · have hmin : 1 ≤ min C n := le_min hC hn
      have hwpos : 0 < s.workers.length := by
        rw [inv.workers_len]
        omega
      have h0 : s.workers[0]? = some (s.workers[0]) := List.getElem?_eq_getElem hwpos
      have hdone : s.workers[0] = WStatus.done := hterm _ (List.getElem_mem hwpos)
      have := inv.done_cur 0 (by rw [h0, hdone])
      have := inv.cursor_le
      omega
  refine List.ext_getElem?_iff.mpr ?_
  intro q
  by_cases hq : q < n
  · rcases inv.claimed q (by omega) with hres | ⟨v, hv⟩
    · rw [hres, List.getElem?_map, List.getElem?_range hq]
      rfl
    · exfalso
      have hmem : WStatus.busy q ∈ s.workers := List.getElem?_mem hv
      exact absurd (hterm _ hmem) (by simp)
  · rw [List.getElem?_eq_none (by rw [inv.results_len]; omega),
      List.getElem?_eq_none (by rw [List.length_map, List.length_range]; omega)]

/-- Claim C2: for every identifier list and every concurrency bound `C ≥ 1`,
any terminal state of the pipeline (under any interleaving) holds a result
list of the same length as the input in which slot `i` carries exactly the
lookup result produced for `identifiers[i]`. -/
theorem processInParallel_preserves_order (cas : List String)
    (envOf : String → UpstreamEnv) (C : Nat) (hC : 1 ≤ C) (s : PoolState OutputRow)
    (hreach : PoolReach cas.length (chemProcessor cas envOf) C s)
    (hterm : PoolTerminal s) :
    s.results.length = cas.length ∧
      ∀ i : Nat, i < cas.length →
        s.results[i]? = some (some (chemProcessor cas envOf i)) := by
  have heq := poolInv_terminal_eq hC (poolInv_reach hreach) hterm
  constructor
  · rw [heq, List.length_map, List.length_range]
  · intro i hi
    rw [heq, List.getElem?_map, List.getElem?_range hi]
    rfl

/-- Witness: a complete one-item run (claim, complete, retire) reaching the
terminal state, with the result row evaluated. -/
theorem processInParallel_preserves_order_witness :
    pool50End.results.length = (["50-00-0"] : List String).length ∧
      ∀ i : Nat, i < (["50-00-0"] : List String).length →
        pool50End.results[i]? = some (some (chemProcessor ["50-00-0"] envOf50 i)) := by
  refine processInParallel_preserves_order ["50-00-0"] envOf50 1 (by omega) pool50End ?_ ?_
  · exact PoolReach.step _ _
      (PoolReach.step _ _
        (PoolReach.step _ _ PoolReach.init (PoolStep.claim _ 0 rfl (by decide)))
        (PoolStep.complete _ 0 0 rfl))
      (PoolStep.retire _ 0 rfl (by decide))
  · intro st hst
    simpa [pool50End] using hst

/-- Claim C8: in every reachable pipeline state the pool has exactly
`min(C, n)` workers, at most `C` lookups are in flight, no two workers hold
the same claimed index, and at termination every index `i < n` holds the
result computed for it. -/
theorem worker_pool_safety {R : Type} (n C : Nat) (f : Nat → R) (s : PoolState R)
    (hC : 1 ≤ C) (hreach : PoolReach n f C s) :
    s.workers.length = min C n
    ∧ inFlight s ≤ C
    ∧ (∀ w w' i : Nat, s.workers[w]? = some (WStatus.busy i) →
        s.workers[w']? = some (WStatus.busy i) → w = w')
    ∧ (PoolTerminal s → ∀ i : Nat, i < n → s.results[i]? = some (some (f i))) := by
  have inv := poolInv_reach hreach
  refine ⟨inv.workers_len, ?_, inv.busy_uniq, ?_⟩
  · calc inFlight s ≤ s.workers.length := List.length_filter_le _ _
      _ = min C n := inv.workers_len
      _ ≤ C := Nat.min_le_left C n
  · intro hterm i hi
    have heq := poolInv_terminal_eq hC inv hterm
    rw [heq, List.getElem?_map, List.getElem?_range hi]
    rfl

/-- Witness: the safety properties of a finished one-item run with the
default concurrency bound of 5. -/
theorem worker_pool_safety_witness :
    pool50End.workers.length = min CONCURRENCY_LIMIT 1
    ∧ inFlight pool50End ≤ CONCURRENCY_LIMIT
    ∧ (∀ w w' i : Nat, pool50End.workers[w]? = some (WStatus.busy i) →
        pool50End.workers[w']? = some (WStatus.busy i) → w = w')
    ∧ (PoolTerminal pool50End → ∀ i : Nat, i < 1 →
        pool50End.results[i]? = some (some (chemProcessor ["50-00-0"] envOf50 i))) := by
  refine worker_pool_safety 1 CONCURRENCY_LIMIT (chemProcessor ["50-00-0"] envOf50)
    pool50End (by decide) ?_
  exact PoolReach.step _ _
    (PoolReach.step _ _
      (PoolReach.step _ _ PoolReach.init (PoolStep.claim _ 0 rfl (by decide)))
      (PoolStep.complete _ 0 0 rfl))
    (PoolStep.retire _ 0 rfl (by decide))

/-- Claim C9: two runs over the same identifier list that observe identical
upstream responses end with identical output row sequences, whatever the
interleaving, the completion order, and even the concurrency bounds (both
at least 1). -/
theorem pipeline_deterministic (cas : List String) (envOf : String → UpstreamEnv)
    (C C' : Nat) (hC : 1 ≤ C) (hC' : 1 ≤ C') (s1 s2 : PoolState OutputRow)
    (h1 : PoolReach cas.length (chemProcessor cas envOf) C s1) (t1 : PoolTerminal s1)
    (h2 : PoolReach cas.length (chemProcessor cas envOf) C' s2) (t2 : PoolTerminal s2) :
    s1.results = s2.results := by
  rw [poolInv_terminal_eq hC (poolInv_reach h1) t1,
    poolInv_terminal_eq hC' (poolInv_reach h2) t2]

/-- Witness: two one-item runs with bounds 1 and 5 give the same rows. -/
theorem pipeline_deterministic_witness :
    pool50End.results = pool50End.results := by
  refine pipeline_deterministic ["50-00-0"] envOf50 1 CONCURRENCY_LIMIT (by omega) (by decide)
    pool50End pool50End ?_ ?_ ?_ ?_
  · exact PoolReach.step _ _
      (PoolReach.step _ _
        (PoolReach.step _ _ PoolReach.init (PoolStep.claim _ 0 rfl (by decide)))
        (PoolStep.complete _ 0 0 rfl))
      (PoolStep.retire _ 0 rfl (by decide))
  · intro st hst
    simpa [pool50End] using hst
  · exact PoolReach.step _ _
      (PoolReach.step _ _
        (PoolReach.step _ _ PoolReach.init (PoolStep.claim _ 0 rfl (by decide)))
      (PoolStep.complete _ 0 0 rfl))
      (PoolStep.retire _ 0 rfl (by decide))
  · intro st hst
    simpa [pool50End] using hst

end CcFinder
